import Mathlib

/-!
Verification of the scanning core of the TLFproject Kotlin lexical analyzer.

The TypeScript sources are shallowly embedded: the input string is a
`List Char`, each automaton class becomes a namespace of functions, and every
`while` loop becomes a fuel-bounded recursion (every loop in the source
advances its position by at least one character per iteration, so a fuel of
`input.length + 2` is always sufficient; the relevant theorems either hold for
all fuel values or carry an explicit sufficiency hypothesis).

Numeric decoded values: the source stores `parseInt(lexeme, 10)` for integers
and `parseFloat(lexeme)` for decimals.  Integers are modelled exactly; for a
decimal lexeme the model stores the exact decimal value as a mantissa/scale
pair (`314`, `2` for `3.14`), of which the source's IEEE-754 double is the
nearest approximation.
-/

namespace TLF

/-- Input strings are lists of characters (JS strings indexed by position). -/
abbrev Str := List Char

/-- `token-type.enum.ts` : enum TokenType. -/
inductive TokenType where
  | INTEGER | DECIMAL | STRING | CHAR | RAW_STRING | STRING_TEMPLATE
  | BOOLEAN | NULL
  | IDENTIFIER | KEYWORD
  | PLUS | MINUS | MULTIPLY | DIVIDE | MODULO
  | EQUALS | NOT_EQUALS | LESS_THAN | GREATER_THAN | LESS_EQUALS
  | GREATER_EQUALS | IDENTITY_EQUALS | IDENTITY_NOT_EQUALS
  | AND | OR | NOT
  | ASSIGN | PLUS_ASSIGN | MINUS_ASSIGN | MULTIPLY_ASSIGN | DIVIDE_ASSIGN
  | MODULO_ASSIGN
  | INCREMENT | DECREMENT
  | SAFE_CALL | NOT_NULL_ASSERTION | ELVIS | RANGE | ARROW | DOUBLE_COLON
  | IN | NOT_IN | IS | NOT_IS | AS | SAFE_CAST
  | BITWISE_AND | BITWISE_OR | BITWISE_XOR
  | LPAREN | RPAREN | LBRACE | RBRACE | LBRACKET | RBRACKET
  | SEMICOLON | COMMA | DOT | COLON
  | LINE_COMMENT | BLOCK_COMMENT | DOC_COMMENT
  | WHITESPACE | NEWLINE
  | EOF | UNKNOWN
deriving Repr, DecidableEq
-- `BITWISE_AND`/`BITWISE_OR`/`BITWISE_XOR` are referenced by the operator
-- table of `operator-automaton.ts` although `token-type.enum.ts` does not
-- declare them; they are included so the table can be embedded as written.

/-- The `value` payload of a token (`value?: any` in `token.model.ts`): the
parsed integer, the exact decimal value `mant / 10 ^ scale` of a decimal
lexeme, or a decoded/trimmed character string. -/
inductive TokenValue where
  | intVal (n : Nat)
  | decVal (mant : Nat) (scale : Nat)
  | strVal (s : Str)
deriving Repr, DecidableEq

/-- `token.model.ts` : interface Token. -/
structure Token where
  type : TokenType
  lexeme : Str
  line : Nat
  column : Nat
  position : Nat
  length : Nat
  value : Option TokenValue := none
deriving Repr, DecidableEq

/-- `lexical-error.model.ts` : enum LexicalErrorType. -/
inductive LexicalErrorType where
  | UNCLOSED_STRING
  | UNCLOSED_BLOCK_COMMENT
  | IDENTIFIER_TOO_LONG
  | UNRECOGNIZED_TOKEN
  | INVALID_NUMBER
  | INVALID_CHAR
  | UNCLOSED_RAW_STRING
  | INVALID_UNICODE_CHAR
deriving Repr, DecidableEq

/-- `lexical-error.model.ts` : interface LexicalError. -/
structure LexicalError where
  type : LexicalErrorType
  message : String
  line : Nat
  column : Nat
  lexeme : Str
  suggestion : Option String := none
deriving Repr, DecidableEq

/-- `lexer.service.ts` : interface RecognitionResult. -/
structure RecognitionResult where
  token : Option Token := none
  error : Option LexicalError := none
  skipLength : Option Nat := none
deriving Repr, DecidableEq

namespace CharacterUtils

/-- `CharacterUtils.isDigit` : ASCII 0-9. -/
def isDigit (c : Char) : Bool :=
  48 ≤ c.toNat && c.toNat ≤ 57

/-- `CharacterUtils.isLetter` : ASCII A-Z, a-z. -/
def isLetter (c : Char) : Bool :=
  (65 ≤ c.toNat && c.toNat ≤ 90) || (97 ≤ c.toNat && c.toNat ≤ 122)

/-- `CharacterUtils.isIdentifierStart` : letter or underscore. -/
def isIdentifierStart (c : Char) : Bool :=
  isLetter c || c = '_'

/-- `CharacterUtils.isIdentifierPart` : letter, digit or underscore. -/
def isIdentifierPart (c : Char) : Bool :=
  isLetter c || isDigit c || c = '_'

/-- `CharacterUtils.isWhitespace` : space, tab or carriage return. -/
def isWhitespace (c : Char) : Bool :=
  c = ' ' || c = '\t' || c = '\r'

/-- `CharacterUtils.isValidUnicodeChar` : rejects U+FFFD, non-printable
control characters other than tab/LF/CR, the surrogate range and the BMP
noncharacter block. -/
def isValidUnicodeChar (c : Char) : Bool :=
  let code := c.toNat
  if code = 0xFFFD then false
  else if code < 0x20 && code ≠ 0x09 && code ≠ 0x0A && code ≠ 0x0D then false
  else if 0xD800 ≤ code && code ≤ 0xDFFF then false
  else if 0xFDD0 ≤ code && code ≤ 0xFDEF then false
  else true

/-- `CharacterUtils.escapeCharToValue` : `escapeMap[char] || char`.  The map
covers `n,t,r,b,f,\,",',$,0`; every other character falls through to itself
(the function can never signal an invalid escape). -/
def escapeCharToValue (c : Char) : Char :=
  if c = 'n' then '\n'
  else if c = 't' then '\t'
  else if c = 'r' then '\r'
  else if c = 'b' then '\x08'
  else if c = 'f' then '\x0c'
  else if c = '\\' then '\\'
  else if c = '"' then '"'
  else if c = '\x27' then '\x27'
  else if c = '$' then '$'
  else if c = '0' then '\x00'
  else c

end CharacterUtils

/-- JS `toLowerCase` restricted to ASCII (identifier lexemes contain only
ASCII letters, digits and underscores, so this is the reachable behavior). -/
def toLowerChar (c : Char) : Char :=
  if 65 ≤ c.toNat && c.toNat ≤ 90 then Char.ofNat (c.toNat + 32) else c

namespace ReservedWords

/-- `ReservedWords.KEYWORDS` : the fixed keyword set of `reserved-words.ts`. -/
def KEYWORDS : List Str :=
  [ "package".toList, "import".toList, "class".toList, "interface".toList,
    "object".toList, "fun".toList, "val".toList, "var".toList,
    "typealias".toList,
    "public".toList, "private".toList, "protected".toList, "internal".toList,
    "open".toList, "final".toList, "abstract".toList, "sealed".toList,
    "override".toList, "lateinit".toList, "inner".toList, "data".toList,
    "enum".toList, "annotation".toList, "companion".toList, "inline".toList,
    "infix".toList, "operator".toList, "suspend".toList, "tailrec".toList,
    "external".toList,
    "if".toList, "else".toList, "when".toList, "for".toList, "while".toList,
    "do".toList, "return".toList, "break".toList, "continue".toList,
    "throw".toList, "try".toList, "catch".toList, "finally".toList,
    "in".toList, "is".toList, "as".toList,
    "true".toList, "false".toList, "null".toList,
    "this".toList, "super".toList, "where".toList, "by".toList, "get".toList,
    "set".toList, "constructor".toList, "init".toList, "field".toList,
    "property".toList, "receiver".toList, "param".toList, "setparam".toList,
    "delegate".toList, "file".toList, "expect".toList, "actual".toList,
    "const".toList, "dynamic".toList, "reified".toList ]

/-- `ReservedWords.isKeyword` : `KEYWORDS.has(word.toLowerCase())` — note the
lowercasing of the queried word before the membership test. -/
def isKeyword (word : Str) : Bool :=
  KEYWORDS.contains (word.map toLowerChar)

/-- `ReservedWords.getTokenType`. -/
def getTokenType (word : Str) : TokenType :=
  if isKeyword word then TokenType.KEYWORD else TokenType.IDENTIFIER

/-- `ReservedWords.isBooleanLiteral`. -/
def isBooleanLiteral (word : Str) : Bool :=
  word = "true".toList || word = "false".toList

/-- `ReservedWords.isNullLiteral`. -/
def isNullLiteral (word : Str) : Bool :=
  word = "null".toList

/-- `ReservedWords.getSpecialLiteralType`. -/
def getSpecialLiteralType (word : Str) : TokenType :=
  if isBooleanLiteral word then TokenType.BOOLEAN
  else if isNullLiteral word then TokenType.NULL
  else TokenType.KEYWORD

end ReservedWords

/-- `BaseAutomaton.peek` : character at `pos + offset`, `'\0'` past the end. -/
def peek (input : Str) (pos : Nat) (offset : Nat := 0) : Char :=
  input.getD (pos + offset) '\x00'

/-- JS `substring(a, b)` for `a ≤ b` (all call sites satisfy this). -/
def slice (input : Str) (a b : Nat) : Str :=
  (input.drop a).take (b - a)

/-- `parseInt(lexeme, 10)` on an all-digit lexeme. -/
def digitsToNat (s : Str) : Nat :=
  s.foldl (fun n c => n * 10 + (c.toNat - 48)) 0

/-- Characters removed by JS `trim()` (ASCII whitespace suffices here:
comment/string content is scanned from source text). -/
def isTrimWs (c : Char) : Bool :=
  c = ' ' || c = '\t' || c = '\n' || c = '\r' || c = '\x0b' || c = '\x0c'

/-- JS `String.prototype.trim`. -/
def trim (s : Str) : Str :=
  ((s.dropWhile isTrimWs).reverse.dropWhile isTrimWs).reverse

/-- Does `l` start with `pat`? (helper for JS `includes`). -/
def listStartsWith : Str → Str → Bool
  | _, [] => true
  | [], _ :: _ => false
  | c :: cs, d :: ds => c = d && listStartsWith cs ds

/-- JS `String.prototype.includes` : does `l` contain `pat` as a contiguous
substring? -/
def hasSub : Str → Str → Bool
  | [], pat => listStartsWith [] pat
  | l@(_ :: rest), pat => listStartsWith l pat || hasSub rest pat

/-- `BaseAutomaton.createToken`. -/
def createToken (type : TokenType) (lexeme : Str) (line column position : Nat)
    (value : Option TokenValue := none) : Token :=
  { type, lexeme, line, column, position, length := lexeme.length, value }

namespace Constants

/-- `Constants.MAX_IDENTIFIER_LENGTH`. -/
def MAX_IDENTIFIER_LENGTH : Nat := 15

end Constants

namespace NumberAutomaton

/-- States of `number-automaton.ts`. -/
inductive NumberState where
  | START | INTEGER | DOT | DECIMAL | REJECT
deriving Repr, DecidableEq

/-- `NumberAutomaton.createIntegerToken` : value is `parseInt(lexeme, 10)`. -/
def createIntegerToken (lexeme : Str) (line column position : Nat) : Token :=
  createToken TokenType.INTEGER lexeme line column position
    (some (TokenValue.intVal (digitsToNat lexeme)))

/-- `NumberAutomaton.createDecimalToken` : the source stores
`parseFloat(lexeme)`; the model stores the exact decimal value of the lexeme
as mantissa and scale (the double is its nearest IEEE-754 approximation). -/
def createDecimalToken (lexeme : Str) (line column position : Nat) : Token :=
  let intPart := lexeme.takeWhile (fun c => !(c = '.'))
  let fracPart := (lexeme.dropWhile (fun c => !(c = '.'))).drop 1
  createToken TokenType.DECIMAL lexeme line column position
    (some (TokenValue.decVal (digitsToNat (intPart ++ fracPart)) fracPart.length))

/-- The `while` loop of `NumberAutomaton.recognize`, one constructor of
`NumberState` per `switch` case; the after-loop acceptance check of the
source appears in both fuel branches (the fuel is always sufficient, so the
zero-fuel arm is only ever reached with `pos` at or past the end of the
input).  (The source's `hasDecimalPoint` local is written but never read and
is omitted.) -/
def recognizeLoop (input : Str) (line column startPos : Nat) :
    Nat → NumberState → Nat → Str → Option Token
  | 0, state, pos, lexeme =>
    if pos < input.length then none
    else
      match state with
      | NumberState.INTEGER => some (createIntegerToken lexeme line column startPos)
      | NumberState.DECIMAL => some (createDecimalToken lexeme line column startPos)
      | _ => none
  | fuel + 1, state, pos, lexeme =>
    if pos < input.length then
      let char := peek input pos
      match state with
      | NumberState.START =>
        if CharacterUtils.isDigit char then
          recognizeLoop input line column startPos fuel NumberState.INTEGER
            (pos + 1) (lexeme ++ [char])
        else none
      | NumberState.INTEGER =>
        if CharacterUtils.isDigit char then
          recognizeLoop input line column startPos fuel NumberState.INTEGER
            (pos + 1) (lexeme ++ [char])
        else if char = '.' ∧ ¬ peek input pos 1 = '.' then
          if CharacterUtils.isDigit (peek input pos 1) then
            recognizeLoop input line column startPos fuel NumberState.DOT
              (pos + 1) (lexeme ++ [char])
          else some (createIntegerToken lexeme line column startPos)
        else some (createIntegerToken lexeme line column startPos)
      | NumberState.DOT =>
        if CharacterUtils.isDigit char then
          recognizeLoop input line column startPos fuel NumberState.DECIMAL
            (pos + 1) (lexeme ++ [char])
        else
          recognizeLoop input line column startPos fuel NumberState.REJECT pos lexeme
      | NumberState.DECIMAL =>
        if CharacterUtils.isDigit char then
          recognizeLoop input line column startPos fuel NumberState.DECIMAL
            (pos + 1) (lexeme ++ [char])
        else some (createDecimalToken lexeme line column startPos)
      | NumberState.REJECT => none
    else
      match state with
      | NumberState.INTEGER => some (createIntegerToken lexeme line column startPos)
      | NumberState.DECIMAL => some (createDecimalToken lexeme line column startPos)
      | _ => none

/-- `NumberAutomaton.recognize`. -/
def recognize (input : Str) (startPos line column : Nat) : Option Token :=
  recognizeLoop input line column startPos (input.length + 2) NumberState.START startPos []

end NumberAutomaton

namespace IdentifierAutomaton

/-- The consuming loop of `IdentifierAutomaton.recognize`; returns the end
position of the identifier run, or `none` when the run exceeds the maximum
length (the source then internally consumes the rest of the run into a local
cursor and returns `null`, discarding that cursor). -/
def scanLoop (input : Str) : Nat → Nat → Nat → Option Nat
  | fuel, pos, identifierLength =>
    if pos < input.length then
      match fuel with
      | 0 => none
      | fuel + 1 =>
        let char := peek input pos
        if CharacterUtils.isIdentifierPart char then
          if identifierLength + 1 > Constants.MAX_IDENTIFIER_LENGTH then none
          else scanLoop input fuel (pos + 1) (identifierLength + 1)
        else some pos
    else some pos

/-- `IdentifierAutomaton.recognize`. -/
def recognize (input : Str) (startPos line column : Nat) : Option Token :=
  let firstChar := peek input startPos
  if ¬ CharacterUtils.isIdentifierStart firstChar then none
  else
    match scanLoop input (input.length + 2) (startPos + 1) 1 with
    | none => none
    | some endPos =>
      let lexeme := slice input startPos endPos
      let tokenType :=
        if ReservedWords.isKeyword lexeme then ReservedWords.getTokenType lexeme
        else TokenType.IDENTIFIER
      some (createToken tokenType lexeme line column startPos)

end IdentifierAutomaton

namespace OperatorAutomaton

/-- `OperatorAutomaton.OPERATORS` : the fixed operator table. -/
def OPERATORS : List (Str × TokenType) :=
  [ ("+".toList, TokenType.PLUS), ("-".toList, TokenType.MINUS),
    ("*".toList, TokenType.MULTIPLY), ("/".toList, TokenType.DIVIDE),
    ("%".toList, TokenType.MODULO),
    ("==".toList, TokenType.EQUALS), ("!=".toList, TokenType.NOT_EQUALS),
    ("<".toList, TokenType.LESS_THAN), (">".toList, TokenType.GREATER_THAN),
    ("<=".toList, TokenType.LESS_EQUALS), (">=".toList, TokenType.GREATER_EQUALS),
    ("===".toList, TokenType.IDENTITY_EQUALS),
    ("!==".toList, TokenType.IDENTITY_NOT_EQUALS),
    ("&&".toList, TokenType.AND), ("||".toList, TokenType.OR),
    ("!".toList, TokenType.NOT),
    ("&".toList, TokenType.BITWISE_AND), ("|".toList, TokenType.BITWISE_OR),
    ("^".toList, TokenType.BITWISE_XOR),
    ("=".toList, TokenType.ASSIGN), ("+=".toList, TokenType.PLUS_ASSIGN),
    ("-=".toList, TokenType.MINUS_ASSIGN), ("*=".toList, TokenType.MULTIPLY_ASSIGN),
    ("/=".toList, TokenType.DIVIDE_ASSIGN), ("%=".toList, TokenType.MODULO_ASSIGN),
    ("++".toList, TokenType.INCREMENT), ("--".toList, TokenType.DECREMENT),
    ("?.".toList, TokenType.SAFE_CALL), ("!!".toList, TokenType.NOT_NULL_ASSERTION),
    ("?:".toList, TokenType.ELVIS), ("::".toList, TokenType.DOUBLE_COLON),
    ("..".toList, TokenType.RANGE), ("->".toList, TokenType.ARROW),
    ("as".toList, TokenType.AS), ("as?".toList, TokenType.SAFE_CAST) ]

/-- `Map.get` on the operator table. -/
def lookupOp (s : Str) : Option TokenType :=
  OPERATORS.lookup s

/-- The descending `for` loop of `OperatorAutomaton.recognize` : try the
candidate of each length from `maxLength` down to 1, first hit wins. -/
def findLoop (input : Str) (startPos : Nat) : Nat → Option (Str × TokenType)
  | 0 => none
  | len + 1 =>
    let candidate := slice input startPos (startPos + (len + 1))
    match lookupOp candidate with
    | some t => some (candidate, t)
    | none => findLoop input startPos len

/-- `OperatorAutomaton.recognize`. -/
def recognize (input : Str) (startPos line column : Nat) : Option Token :=
  let maxLength := min 3 (input.length - startPos)
  match findLoop input startPos maxLength with
  | some r => some (createToken r.2 r.1 line column startPos)
  | none => none

end OperatorAutomaton

namespace DelimiterAutomaton

/-- `DelimiterAutomaton.DELIMITERS`. -/
def DELIMITERS : List (Char × TokenType) :=
  [ ('(', TokenType.LPAREN), (')', TokenType.RPAREN),
    ('\x7b', TokenType.LBRACE), ('\x7d', TokenType.RBRACE),
    ('[', TokenType.LBRACKET), (']', TokenType.RBRACKET),
    (';', TokenType.SEMICOLON), (',', TokenType.COMMA),
    ('.', TokenType.DOT), (':', TokenType.COLON) ]

/-- `DelimiterAutomaton.recognize`. -/
def recognize (input : Str) (startPos line column : Nat) : Option Token :=
  let char := peek input startPos
  match DELIMITERS.lookup char with
  | some tokenType => some (createToken tokenType [char] line column startPos)
  | none => none

end DelimiterAutomaton

namespace CommentAutomaton

/-- The consuming loop of `recognizeLineComment` : collect content up to (not
including) the next line break or end of input; returns (end position,
content). -/
def lineLoop (input : Str) : Nat → Nat → Str → Nat × Str
  | fuel, pos, content =>
    if pos < input.length then
      match fuel with
      | 0 => (pos, content)
      | fuel + 1 =>
        let char := peek input pos
        if char = '\n' ∨ char = '\r' then (pos, content)
        else lineLoop input fuel (pos + 1) (content ++ [char])
    else (pos, content)

/-- `CommentAutomaton.recognizeLineComment` (entered with `pos` at the second
`/`, which it consumes first). -/
def recognizeLineComment (input : Str) (pos line column startPos : Nat) : Option Token :=
  let r := lineLoop input (input.length + 2) (pos + 1) []
  some (createToken TokenType.LINE_COMMENT (slice input startPos r.1) line column startPos
    (some (TokenValue.strVal (trim r.2))))

/-- The nesting-counter loop of `CommentAutomaton.recognizeBlockComment`. -/
def blockLoop (input : Str) (line column startPos : Nat) :
    Nat → Nat → Str → Nat → Option Token
  | fuel, pos, content, nestingLevel =>
    if pos < input.length ∧ 0 < nestingLevel then
      match fuel with
      | 0 => none
      | fuel + 1 =>
        let char := peek input pos
        if char = '*' ∧ peek input pos 1 = '/' then
          if nestingLevel - 1 = 0 then
            some (createToken TokenType.BLOCK_COMMENT (slice input startPos (pos + 2))
              line column startPos (some (TokenValue.strVal (trim content))))
          else
            blockLoop input line column startPos fuel (pos + 1) (content ++ [char])
              (nestingLevel - 1)
        else if char = '/' ∧ peek input pos 1 = '*' then
          blockLoop input line column startPos fuel (pos + 1) (content ++ [char])
            (nestingLevel + 1)
        else
          blockLoop input line column startPos fuel (pos + 1) (content ++ [char]) nestingLevel
    else none

/-- The loop of `CommentAutomaton.recognizeDocComment`. -/
def docLoop (input : Str) (line column startPos : Nat) : Nat → Nat → Str → Option Token
  | fuel, pos, content =>
    if pos < input.length then
      match fuel with
      | 0 => none
      | fuel + 1 =>
        let char := peek input pos
        if char = '*' ∧ peek input pos 1 = '/' then
          some (createToken TokenType.DOC_COMMENT (slice input startPos (pos + 2))
            line column startPos (some (TokenValue.strVal (trim content))))
        else docLoop input line column startPos fuel (pos + 1) (content ++ [char])
    else none

/-- `CommentAutomaton.recognize`. -/
def recognize (input : Str) (startPos line column : Nat) : Option Token :=
  let firstChar := peek input startPos
  if ¬ firstChar = '/' then none
  else
    let secondChar := peek input (startPos + 1)
    if secondChar = '/' then
      recognizeLineComment input (startPos + 1) line column startPos
    else if secondChar = '*' then
      if peek input (startPos + 2) = '*' then
        docLoop input line column startPos (input.length + 2) (startPos + 3) []
      else
        blockLoop input line column startPos (input.length + 2) (startPos + 2) [] 1
    else none

end CommentAutomaton

namespace StringAutomaton

/-- The loop of `StringAutomaton.recognizeChar`.  The source checks
`escapedValue === null` to reject an invalid escape code, but
`escapeCharToValue` is `escapeMap[char] || char` and always returns a
character, so that reject branch is unreachable and does not appear here. -/
def charLoop (input : Str) (line column startPos : Nat) :
    Nat → Nat → Str → Bool → Option Token
  | fuel, pos, charContent, escaped =>
    if pos < input.length then
      match fuel with
      | 0 => none
      | fuel + 1 =>
        let char := peek input pos
        if escaped then
          charLoop input line column startPos fuel (pos + 1)
            (charContent ++ [CharacterUtils.escapeCharToValue char]) false
        else if char = '\\' then
          charLoop input line column startPos fuel (pos + 1) charContent true
        else if char = '\x27' then
          some (createToken TokenType.CHAR (slice input startPos (pos + 1)) line column
            startPos (some (TokenValue.strVal charContent)))
        else if char = '\n' ∨ char = '\r' then none
        else if ¬ CharacterUtils.isValidUnicodeChar char then none
        else charLoop input line column startPos fuel (pos + 1) (charContent ++ [char]) false
    else none

/-- The brace-balancing loop of `StringAutomaton.consumeTemplateBrace`. -/
def braceLoop (input : Str) : Nat → Nat → Str → Nat → Str × Nat
  | fuel, pos, content, braceCount =>
    if pos < input.length ∧ 0 < braceCount then
      match fuel with
      | 0 => (content, pos)
      | fuel + 1 =>
        let char := peek input pos
        let braceCount' :=
          if char = '\x7b' then braceCount + 1
          else if char = '\x7d' then braceCount - 1
          else braceCount
        braceLoop input fuel (pos + 1) (content ++ [char]) braceCount'
    else (content, pos)

/-- `StringAutomaton.consumeTemplateBrace` (entered with `pos` at the `{`,
which it consumes first); returns (content, new position). -/
def consumeTemplateBrace (input : Str) (pos : Nat) : Str × Nat :=
  braceLoop input (input.length + 2) (pos + 1) ['\x7b'] 1

/-- The identifier-part loop of `StringAutomaton.consumeTemplateVariable`. -/
def templateVarLoop (input : Str) : Nat → Nat → Str → Str × Nat
  | fuel, pos, content =>
    if pos < input.length ∧ CharacterUtils.isIdentifierPart (peek input pos) then
      match fuel with
      | 0 => (content, pos)
      | fuel + 1 => templateVarLoop input fuel (pos + 1) (content ++ [peek input pos])
    else (content, pos)

/-- `StringAutomaton.consumeTemplateVariable`. -/
def consumeTemplateVariable (input : Str) (pos : Nat) : Str × Nat :=
  if CharacterUtils.isIdentifierStart (peek input pos) then
    templateVarLoop input (input.length + 2) pos []
  else ([], pos)

/-- The loop of `StringAutomaton.recognizeString` (invalid-escape note as in
`charLoop`). -/
def stringLoop (input : Str) (line column startPos : Nat) :
    Nat → Nat → Str → Bool → Bool → Option Token
  | fuel, pos, stringContent, hasTemplate, escaped =>
    if pos < input.length then
      match fuel with
      | 0 => none
      | fuel + 1 =>
        let char := peek input pos
        if escaped then
          stringLoop input line column startPos fuel (pos + 1)
            (stringContent ++ [CharacterUtils.escapeCharToValue char]) hasTemplate false
        else if char = '\\' then
          stringLoop input line column startPos fuel (pos + 1) stringContent hasTemplate true
        else if char = '$' then
          let r :=
            if peek input (pos + 1) = '\x7b' then consumeTemplateBrace input (pos + 1)
            else consumeTemplateVariable input (pos + 1)
          stringLoop input line column startPos fuel r.2
            (stringContent ++ [char] ++ r.1) true false
        else if char = '"' then
          some (createToken
            (if hasTemplate then TokenType.STRING_TEMPLATE else TokenType.STRING)
            (slice input startPos (pos + 1)) line column startPos
            (some (TokenValue.strVal stringContent)))
        else if char = '\n' ∨ char = '\r' then none
        else if ¬ CharacterUtils.isValidUnicodeChar char then none
        else
          stringLoop input line column startPos fuel (pos + 1)
            (stringContent ++ [char]) hasTemplate false
    else none

/-- The loop of `StringAutomaton.recognizeRawString`. -/
def rawLoop (input : Str) (line column startPos : Nat) : Nat → Nat → Str → Option Token
  | fuel, pos, stringContent =>
    if pos < input.length then
      match fuel with
      | 0 => none
      | fuel + 1 =>
        let char := peek input pos
        if char = '"' then
          if peek input pos 1 = '"' ∧ peek input pos 2 = '"' then
            some (createToken TokenType.RAW_STRING (slice input startPos (pos + 3))
              line column startPos (some (TokenValue.strVal stringContent)))
          else rawLoop input line column startPos fuel (pos + 1) (stringContent ++ [char])
        else rawLoop input line column startPos fuel (pos + 1) (stringContent ++ [char])
    else none

/-- `StringAutomaton.recognize` : dispatch on the opening quote. -/
def recognize (input : Str) (startPos line column : Nat) : Option Token :=
  let firstChar := peek input startPos
  if firstChar = '\x27' then
    charLoop input line column startPos (input.length + 2) (startPos + 1) [] false
  else if firstChar = '"' then
    if peek input startPos 1 = '"' ∧ peek input startPos 2 = '"' then
      rawLoop input line column startPos (input.length + 2) (startPos + 3) []
    else
      stringLoop input line column startPos (input.length + 2) (startPos + 1) [] false false
  else none

end StringAutomaton

namespace LexerService

/-- The lexeme-building loop of the unclosed string/char error path in
`LexerService.recognizeToken` : collect characters up to the end of the line
or of the input. -/
def stringErrorLoop (input : Str) : Nat → Nat → Str → Str
  | fuel, endPos, lexeme =>
    if endPos < input.length then
      match fuel with
      | 0 => lexeme
      | fuel + 1 =>
        let char := peek input endPos
        if char = '\n' ∨ char = '\r' then lexeme
        else stringErrorLoop input fuel (endPos + 1) (lexeme ++ [char])
    else lexeme

/-- Steps 3-6 of `LexerService.recognizeToken` : numbers, then operators,
then identifiers, then delimiters. -/
def recognizeRest (input : Str) (position line column : Nat) : Option RecognitionResult :=
  match NumberAutomaton.recognize input position line column with
  | some token => some { token := some token }
  | none =>
  match OperatorAutomaton.recognize input position line column with
  | some token => some { token := some token }
  | none =>
  match IdentifierAutomaton.recognize input position line column with
  | some token => some { token := some token }
  | none =>
  match DelimiterAutomaton.recognize input position line column with
  | some token => some { token := some token }
  | none => none

/-- `LexerService.recognizeToken` : comments first (only on `/`, with the
unclosed-block-comment fallback that fires only when no `*/` occurs anywhere
ahead), then strings/chars (only on a quote, with the unclosed-string error
fallback), then the remaining automata in priority order. -/
def recognizeToken (input : Str) (position line column : Nat) : Option RecognitionResult :=
  let currentChar := peek input position
  if currentChar = '/' then
    match CommentAutomaton.recognize input position line column with
    | some token => some { token := some token }
    | none =>
      if position + 1 < input.length ∧ peek input (position + 1) = '*' ∧
          ¬ hasSub (input.drop position) ['*', '/'] then
        let e : LexicalError :=
          { type := LexicalErrorType.UNCLOSED_BLOCK_COMMENT,
            message := "Comentario de bloque sin cerrar (falta */)",
            line, column,
            lexeme := slice input position (min (position + 50) input.length) }
        some { error := some e, skipLength := some (input.length - position) }
      else recognizeRest input position line column
  else if currentChar = '"' ∨ currentChar = '\x27' then
    match StringAutomaton.recognize input position line column with
    | some token => some { token := some token }
    | none =>
      let lexeme := stringErrorLoop input (input.length + 2) (position + 1) [currentChar]
      let e : LexicalError :=
        { type := LexicalErrorType.UNCLOSED_STRING,
          message :=
            if currentChar = '"' then "Cadena sin cerrar (falta \")"
            else "Car\xe1cter sin cerrar (falta \x27)",
          line, column, lexeme }
      some { error := some e, skipLength := some lexeme.length }
  else recognizeRest input position line column

/-- One consumed span of the scan loop: a produced token, a diagnostic
together with its recovery-skip span, or elided whitespace.  Ghost
instrumentation added to the embedding (it records what each iteration of the
`analyze` loop consumed) so that the coverage invariant can be stated. -/
inductive Seg where
  | tok (t : Token)
  | err (e : LexicalError) (consumed : Str)
  | ws (chars : Str)
deriving Repr, DecidableEq

/-- The full state returned by the scan loop: accumulated tokens and errors,
the ghost segment trace, and the final line/column/position counters. -/
structure ScanOut where
  tokens : List Token
  errors : List LexicalError
  segments : List Seg
  line : Nat
  column : Nat
  position : Nat
deriving Repr, DecidableEq

/-- The unrecognized-character diagnostic of the final `else` of the scan
loop. -/
def unrecognizedError (c : Char) (line column : Nat) : LexicalError :=
  { type := LexicalErrorType.UNRECOGNIZED_TOKEN,
    message := "Car\xe1cter no reconocido: \x27" ++ String.mk [c] ++ "\x27",
    line, column, lexeme := [c] }

/-- The `while` loop of `LexerService.analyze` : skip non-newline whitespace,
handle `\n` / `\r` / `\r\n`, otherwise dispatch to `recognizeToken` and
advance by the token length, the recovery skip, or one character. -/
def analyzeLoop (input : Str) : Nat → Nat → Nat → Nat → ScanOut
  | 0, position, line, column => ⟨[], [], [], line, column, position⟩
  | fuel + 1, position, line, column =>
    if position < input.length then
      let currentChar := peek input position
      if CharacterUtils.isWhitespace currentChar ∧ ¬ currentChar = '\n' ∧
          ¬ currentChar = '\r' then
        let out := analyzeLoop input fuel (position + 1) line (column + 1)
        { out with segments := Seg.ws [currentChar] :: out.segments }
      else if currentChar = '\n' then
        let out := analyzeLoop input fuel (position + 1) (line + 1) 1
        { out with segments := Seg.ws [currentChar] :: out.segments }
      else if currentChar = '\r' then
        if position + 1 < input.length ∧ peek input (position + 1) = '\n' then
          let out := analyzeLoop input fuel (position + 2) (line + 1) 1
          { out with segments := Seg.ws ['\r', '\n'] :: out.segments }
        else
          let out := analyzeLoop input fuel (position + 1) (line + 1) 1
          { out with segments := Seg.ws ['\r'] :: out.segments }
      else
        match recognizeToken input position line column with
        | some result =>
          match result.token with
          | some t =>
            let out := analyzeLoop input fuel (position + t.length) line (column + t.length)
            { out with tokens := t :: out.tokens, segments := Seg.tok t :: out.segments }
          | none =>
            match result.error with
            | some e =>
              let skip :=
                match result.skipLength with
                | some s => if 0 < s then s else 1
                | none => 1
              let out := analyzeLoop input fuel (position + skip) line (column + skip)
              { out with
                errors := e :: out.errors,
                segments := Seg.err e (slice input position (position + skip)) :: out.segments }
            | none =>
              let e := unrecognizedError currentChar line column
              let out := analyzeLoop input fuel (position + 1) line (column + 1)
              { out with
                errors := e :: out.errors,
                segments := Seg.err e (slice input position (position + 1)) :: out.segments }
        | none =>
          let e := unrecognizedError currentChar line column
          let out := analyzeLoop input fuel (position + 1) line (column + 1)
          { out with
            errors := e :: out.errors,
            segments := Seg.err e (slice input position (position + 1)) :: out.segments }
    else ⟨[], [], [], line, column, position⟩

/-- `analysis-result.model.ts` restricted to the scanning core: tokens,
errors and the success flag (timing and display statistics are
presentation-layer data); `segments` is the ghost instrumentation of the
scan loop. -/
structure AnalysisResult where
  tokens : List Token
  errors : List LexicalError
  success : Bool
  segments : List Seg
deriving Repr, DecidableEq

/-- `LexerService.analyze` : run the scan loop over the whole input and
append the EOF token at the final line/column/position. -/
def analyze (input : Str) : AnalysisResult :=
  let out := analyzeLoop input input.length 0 1 1
  { tokens := out.tokens ++
      [{ type := TokenType.EOF, lexeme := [], line := out.line, column := out.column,
         position := out.position, length := 0, value := none }],
    errors := out.errors,
    success := out.errors.isEmpty,
    segments := out.segments }

/-- The characters consumed by one segment of the scan. -/
def segText : Seg → Str
  | Seg.tok t => t.lexeme
  | Seg.err _ consumed => consumed
  | Seg.ws chars => chars

/-- Concatenation of the characters consumed by a segment list. -/
def segsText : List Seg → Str
  | [] => []
  | s :: rest => segText s ++ segsText rest

/-- The tokens of a segment list, in order. -/
def segTokens : List Seg → List Token
  | [] => []
  | Seg.tok t :: rest => t :: segTokens rest
  | Seg.err _ _ :: rest => segTokens rest
  | Seg.ws _ :: rest => segTokens rest

/-- The diagnostics of a segment list, in order. -/
def segErrors : List Seg → List LexicalError
  | [] => []
  | Seg.tok _ :: rest => segErrors rest
  | Seg.err e _ :: rest => e :: segErrors rest
  | Seg.ws _ :: rest => segErrors rest

/-- Line increment contributed by one segment: 1 for an elided line-break
whitespace segment (`\n`, `\r` or `\r\n`), 0 for any other segment. -/
def segLineInc : Seg → Nat
  | Seg.ws (c :: _) => if c = '\n' ∨ c = '\r' then 1 else 0
  | _ => 0

/-- Total line increment of a segment list. -/
def segsLineInc : List Seg → Nat
  | [] => 0
  | s :: rest => segLineInc s + segsLineInc rest

end LexerService

/-- Number of line-break sequences (`\n`, `\r` or `\r\n`) in a character
list; this is the counting function used by the specification's claim that a
token's line equals 1 plus the number of line-break sequences occurring
before its starting offset. -/
def countLineBreakSeqs : Str → Nat
  | [] => 0
  | '\r' :: '\n' :: rest => 1 + countLineBreakSeqs rest
  | '\r' :: rest => 1 + countLineBreakSeqs rest
  | '\n' :: rest => 1 + countLineBreakSeqs rest
  | _ :: rest => countLineBreakSeqs rest

/-- Well-formedness of a token produced by a recognizer dispatched at
position `pos` with current line `line` : the token carries the current line,
its `length` field is its lexeme length, the lexeme is nonempty and is
exactly the consumed span of the input starting at `pos`, and its kind is
never the EOF sentinel (which only `analyze` itself appends). -/
def GoodToken (input : Str) (pos line : Nat) (t : Token) : Prop :=
  t.line = line ∧ t.length = t.lexeme.length ∧ 0 < t.length ∧
  t.lexeme = (input.drop pos).take t.lexeme.length ∧ t.type ≠ TokenType.EOF

/-! ### Basic facts about `peek`, `slice` and table lookup -/

theorem peek_eq_get (input : Str) (pos off : Nat) (h : pos + off < input.length) :
    peek input pos off = input.get ⟨pos + off, h⟩ :=
  List.getD_eq_getElem input '\x00' h

theorem peek_default (input : Str) (pos off : Nat) (h : input.length ≤ pos + off) :
    peek input pos off = '\x00' :=
  List.getD_eq_default input '\x00' h

theorem peek_lt_length (input : Str) (pos off : Nat)
    (h : ¬ peek input pos off = '\x00') : pos + off < input.length := by
  by_contra hlen
  exact h (peek_default input pos off (by omega))

theorem drop_eq_peek_cons (input : Str) (pos : Nat) (h : pos < input.length) :
    input.drop pos = peek input pos :: input.drop (pos + 1) := by
  have h0 : pos + 0 < input.length := by omega
  rw [show peek input pos = peek input pos 0 from rfl, peek_eq_get input pos 0 h0]
  exact List.drop_eq_getElem_cons h

theorem slice_succ (input : Str) (a p : Nat) (ha : a ≤ p) (hp : p < input.length) :
    slice input a (p + 1) = slice input a p ++ [peek input p] := by
  unfold slice
  rw [show p + 1 - a = (p - a) + 1 by omega, List.take_succ]
  have hlt : p - a < (input.drop a).length := by
    rw [List.length_drop]; omega
  rw [List.getElem?_eq_getElem hlt]
  have h0 : a + 0 ≤ p := by omega
  congr 1
  simp only [List.getElem_drop, Option.toList_some, List.cons.injEq, and_true]
  have hplt : p + 0 < input.length := by omega
  rw [peek_eq_get input p 0 hplt]
  simp only [List.get_eq_getElem]
  congr 1
  omega

theorem slice_length (input : Str) (a b : Nat) (hb : b ≤ input.length) :
    (slice input a b).length = b - a := by
  simp only [slice, List.length_take, List.length_drop]
  omega

theorem slice_take_form (input : Str) (a b : Nat) (hb : b ≤ input.length) :
    slice input a b = (input.drop a).take (slice input a b).length := by
  rw [slice_length input a b hb]; rfl

theorem lookup_mem {α β : Type} [BEq α] [LawfulBEq α] :
    ∀ (l : List (α × β)) (k : α) (v : β), l.lookup k = some v → (k, v) ∈ l := by
  intro l k v
  induction l with
  | nil => intro h; simp [List.lookup] at h
  | cons p rest ih =>
    obtain ⟨k', v'⟩ := p
    intro h
    simp only [List.lookup] at h
    split at h
    · rename_i hbeq
      obtain rfl : v' = v := by injection h
      obtain rfl : k = k' := eq_of_beq hbeq
      exact List.mem_cons_self _ _
    · exact List.mem_cons_of_mem _ (ih h)

/-- Tokens built by `createToken` over a `slice` of the input are
well-formed. -/
theorem createToken_slice_good (input : Str) (ty : TokenType) (line column a b : Nat)
    (v : Option TokenValue) (h1 : a < b) (h2 : b ≤ input.length)
    (hty : ty ≠ TokenType.EOF) :
    GoodToken input a line (createToken ty (slice input a b) line column a v) := by
  have hlen : (slice input a b).length = b - a := slice_length input a b h2
  refine ⟨rfl, rfl, ?_, ?_, hty⟩
  · show 0 < (slice input a b).length
    omega
  · show slice input a b = (input.drop a).take (slice input a b).length
    exact slice_take_form input a b h2

/-! ### The delimiter automaton produces well-formed tokens -/

theorem DelimiterAutomaton.delimiterRecognize_good (input : Str) (startPos line column : Nat)
    (t : Token) (h : DelimiterAutomaton.recognize input startPos line column = some t) :
    GoodToken input startPos line t := by
  unfold DelimiterAutomaton.recognize at h
  dsimp only at h
  split at h
  case _ ty hl =>
    simp only [Option.some.injEq] at h
    subst h
    have hmem := lookup_mem _ _ _ hl
    have hty : ty ≠ TokenType.EOF := by
      have hall : ∀ p ∈ DelimiterAutomaton.DELIMITERS, p.2 ≠ TokenType.EOF := by decide
      exact hall _ hmem
    have hlt : startPos < input.length := by
      by_contra hge
      rw [peek_default input startPos 0 (by omega)] at hl
      have hnone : DelimiterAutomaton.DELIMITERS.lookup '\x00' = none := by decide
      rw [hnone] at hl
      exact absurd hl (by simp)
    refine ⟨rfl, rfl, by simp [createToken], ?_, hty⟩
    show [peek input startPos] = (input.drop startPos).take [peek input startPos].length
    rw [drop_eq_peek_cons input startPos hlt]
    rfl
  case _ hl => simp at h

/-! ### The operator automaton produces well-formed tokens -/

theorem OperatorAutomaton.findLoop_spec (input : Str) (startPos : Nat) :
    ∀ l r, OperatorAutomaton.findLoop input startPos l = some r →
      ∃ k, 1 ≤ k ∧ k ≤ l ∧ r.1 = slice input startPos (startPos + k) ∧
        OperatorAutomaton.lookupOp r.1 = some r.2 := by
  intro l
  induction l with
  | zero => intro r h; simp [OperatorAutomaton.findLoop] at h
  | succ n ih =>
    intro r h
    unfold OperatorAutomaton.findLoop at h
    dsimp only at h
    split at h
    case _ ty hl =>
      simp only [Option.some.injEq] at h
      subst h
      exact ⟨n + 1, by omega, le_refl _, rfl, hl⟩
    case _ hl =>
      obtain ⟨k, hk1, hk2, hr1, hr2⟩ := ih r h
      exact ⟨k, hk1, by omega, hr1, hr2⟩

theorem OperatorAutomaton.operatorRecognize_good (input : Str) (startPos line column : Nat)
    (t : Token) (h : OperatorAutomaton.recognize input startPos line column = some t) :
    GoodToken input startPos line t := by
  unfold OperatorAutomaton.recognize at h
  dsimp only at h
  split at h
  case _ r hf =>
    simp only [Option.some.injEq] at h
    subst h
    obtain ⟨k, hk1, hk2, hr1, hr2⟩ := OperatorAutomaton.findLoop_spec input startPos _ r hf
    have hkle : startPos + k ≤ input.length := by omega
    have hlen : r.1.length = k := by
      rw [hr1, slice_length input _ _ hkle]; omega
    have hmem := lookup_mem _ _ _ hr2
    have hty : r.2 ≠ TokenType.EOF := by
      have hall : ∀ p ∈ OperatorAutomaton.OPERATORS, p.2 ≠ TokenType.EOF := by decide
      exact hall _ hmem
    refine ⟨rfl, rfl, ?_, ?_, hty⟩
    · show 0 < r.1.length
      omega
    · show r.1 = (input.drop startPos).take r.1.length
      conv_lhs => rw [hr1, slice_take_form input _ _ hkle]
      rw [hr1]
  case _ hf => simp at h

/-! ### The identifier automaton produces well-formed tokens -/

theorem IdentifierAutomaton.scanLoop_bounds (input : Str) :
    ∀ fuel pos idLen e, pos ≤ input.length →
      IdentifierAutomaton.scanLoop input fuel pos idLen = some e →
      pos ≤ e ∧ e ≤ input.length := by
  intro fuel
  induction fuel with
  | zero =>
    intro pos idLen e hp h
    unfold IdentifierAutomaton.scanLoop at h
    split at h
    · simp at h
    · simp only [Option.some.injEq] at h
      omega
  | succ fuel ih =>
    intro pos idLen e hp h
    unfold IdentifierAutomaton.scanLoop at h
    split at h
    case _ hlt =>
      dsimp only at h
      split at h
      · split at h
        · simp at h
        · have := ih (pos + 1) (idLen + 1) e (by omega) h
          omega
      · simp only [Option.some.injEq] at h
        omega
    case _ hge =>
      simp only [Option.some.injEq] at h
      omega

theorem IdentifierAutomaton.identifierRecognize_good (input : Str) (startPos line column : Nat)
    (t : Token) (h : IdentifierAutomaton.recognize input startPos line column = some t) :
    GoodToken input startPos line t := by
  unfold IdentifierAutomaton.recognize at h
  dsimp only at h
  split at h
  · simp at h
  case _ hstart =>
    rw [not_not] at hstart
    have hlt : startPos < input.length := by
      by_contra hge
      rw [peek_default input startPos 0 (by omega)] at hstart
      exact absurd hstart (by decide)
    split at h
    · simp at h
    case _ endPos heq =>
      simp only [Option.some.injEq] at h
      subst h
      obtain ⟨he1, he2⟩ :=
        IdentifierAutomaton.scanLoop_bounds input _ (startPos + 1) 1 endPos (by omega) heq
      have hlen : (slice input startPos endPos).length = endPos - startPos :=
        slice_length input _ _ he2
      refine ⟨rfl, rfl, ?_, ?_, ?_⟩
      · show 0 < (slice input startPos endPos).length
        omega
      · show slice input startPos endPos =
          (input.drop startPos).take (slice input startPos endPos).length
        exact slice_take_form input _ _ he2
      · show (if ReservedWords.isKeyword (slice input startPos endPos) then
            ReservedWords.getTokenType (slice input startPos endPos)
          else TokenType.IDENTIFIER) ≠ TokenType.EOF
        unfold ReservedWords.getTokenType
        split_ifs <;> decide

/-! ### The number automaton produces well-formed tokens -/

theorem NumberAutomaton.recognizeLoop_zero_eq (input : Str) (line column startPos : Nat)
    (state : NumberAutomaton.NumberState) (pos : Nat) (lexeme : Str) :
    NumberAutomaton.recognizeLoop input line column startPos 0 state pos lexeme =
      (if pos < input.length then none
       else
        match state with
        | NumberAutomaton.NumberState.INTEGER =>
          some (NumberAutomaton.createIntegerToken lexeme line column startPos)
        | NumberAutomaton.NumberState.DECIMAL =>
          some (NumberAutomaton.createDecimalToken lexeme line column startPos)
        | _ => none) := rfl

theorem NumberAutomaton.recognizeLoop_succ_eq (input : Str) (line column startPos : Nat)
    (fuel : Nat) (state : NumberAutomaton.NumberState) (pos : Nat) (lexeme : Str) :
    NumberAutomaton.recognizeLoop input line column startPos (fuel + 1) state pos lexeme =
      (if pos < input.length then
        let char := peek input pos
        match state with
        | NumberAutomaton.NumberState.START =>
          if CharacterUtils.isDigit char then
            NumberAutomaton.recognizeLoop input line column startPos fuel
              NumberAutomaton.NumberState.INTEGER (pos + 1) (lexeme ++ [char])
          else none
        | NumberAutomaton.NumberState.INTEGER =>
          if CharacterUtils.isDigit char then
            NumberAutomaton.recognizeLoop input line column startPos fuel
              NumberAutomaton.NumberState.INTEGER (pos + 1) (lexeme ++ [char])
          else if char = '.' ∧ ¬ peek input pos 1 = '.' then
            if CharacterUtils.isDigit (peek input pos 1) then
              NumberAutomaton.recognizeLoop input line column startPos fuel
                NumberAutomaton.NumberState.DOT (pos + 1) (lexeme ++ [char])
            else some (NumberAutomaton.createIntegerToken lexeme line column startPos)
          else some (NumberAutomaton.createIntegerToken lexeme line column startPos)
        | NumberAutomaton.NumberState.DOT =>
          if CharacterUtils.isDigit char then
            NumberAutomaton.recognizeLoop input line column startPos fuel
              NumberAutomaton.NumberState.DECIMAL (pos + 1) (lexeme ++ [char])
          else
            NumberAutomaton.recognizeLoop input line column startPos fuel
              NumberAutomaton.NumberState.REJECT pos lexeme
        | NumberAutomaton.NumberState.DECIMAL =>
          if CharacterUtils.isDigit char then
            NumberAutomaton.recognizeLoop input line column startPos fuel
              NumberAutomaton.NumberState.DECIMAL (pos + 1) (lexeme ++ [char])
          else some (NumberAutomaton.createDecimalToken lexeme line column startPos)
        | NumberAutomaton.NumberState.REJECT => none
       else
        match state with
        | NumberAutomaton.NumberState.INTEGER =>
          some (NumberAutomaton.createIntegerToken lexeme line column startPos)
        | NumberAutomaton.NumberState.DECIMAL =>
          some (NumberAutomaton.createDecimalToken lexeme line column startPos)
        | _ => none) := rfl

theorem NumberAutomaton.createIntegerToken_good (input : Str) (line column startPos pos : Nat)
    (h1 : startPos < pos) (h2 : pos ≤ input.length) :
    GoodToken input startPos line
      (NumberAutomaton.createIntegerToken (slice input startPos pos) line column startPos) := by
  have hlen : (slice input startPos pos).length = pos - startPos := slice_length input _ _ h2
  refine ⟨rfl, rfl, ?_, ?_, ?_⟩
  · show 0 < (slice input startPos pos).length
    omega
  · show slice input startPos pos =
      (input.drop startPos).take (slice input startPos pos).length
    exact slice_take_form input _ _ h2
  · show TokenType.INTEGER ≠ TokenType.EOF
    decide

theorem NumberAutomaton.createDecimalToken_good (input : Str) (line column startPos pos : Nat)
    (h1 : startPos < pos) (h2 : pos ≤ input.length) :
    GoodToken input startPos line
      (NumberAutomaton.createDecimalToken (slice input startPos pos) line column startPos) := by
  have hlen : (slice input startPos pos).length = pos - startPos := slice_length input _ _ h2
  refine ⟨rfl, rfl, ?_, ?_, ?_⟩
  · show 0 < (slice input startPos pos).length
    omega
  · show slice input startPos pos =
      (input.drop startPos).take (slice input startPos pos).length
    exact slice_take_form input _ _ h2
  · show TokenType.DECIMAL ≠ TokenType.EOF
    decide

theorem NumberAutomaton.recognizeLoop_good (input : Str) (line column startPos : Nat) :
    ∀ fuel state pos lexeme t,
      startPos ≤ pos → pos ≤ input.length →
      lexeme = slice input startPos pos →
      (state = NumberAutomaton.NumberState.START → pos = startPos) →
      ((state = NumberAutomaton.NumberState.INTEGER ∨
        state = NumberAutomaton.NumberState.DOT ∨
        state = NumberAutomaton.NumberState.DECIMAL) → startPos < pos) →
      NumberAutomaton.recognizeLoop input line column startPos fuel state pos lexeme = some t →
      GoodToken input startPos line t := by
  intro fuel
  induction fuel with
  | zero =>
    intro state pos lexeme t hsp hpl hlex hst hne h
    rw [NumberAutomaton.recognizeLoop_zero_eq] at h
    split at h
    · simp at h
    · subst hlex
      split at h
      · simp only [Option.some.injEq] at h
        subst h
        exact NumberAutomaton.createIntegerToken_good input line column startPos pos
          (hne (by simp)) hpl
      · simp only [Option.some.injEq] at h
        subst h
        exact NumberAutomaton.createDecimalToken_good input line column startPos pos
          (hne (by simp)) hpl
      · exact absurd h (by simp)
  | succ fuel ih =>
    intro state pos lexeme t hsp hpl hlex hst hne h
    rw [NumberAutomaton.recognizeLoop_succ_eq] at h
    split at h
    case _ hlt =>
      dsimp only at h
      split at h
      · have hps : pos = startPos := hst rfl
        split at h
        · exact ih NumberAutomaton.NumberState.INTEGER (pos + 1) _ t (by omega) (by omega)
            (by rw [hlex, slice_succ input startPos pos hsp hlt]) (by simp)
            (fun _ => by omega) h
        · simp at h
      · have hlow : startPos < pos := hne (by simp)
        split at h
        · exact ih NumberAutomaton.NumberState.INTEGER (pos + 1) _ t (by omega) (by omega)
            (by rw [hlex, slice_succ input startPos pos hsp hlt]) (by simp)
            (fun _ => by omega) h
        · split at h
          · split at h
            · exact ih NumberAutomaton.NumberState.DOT (pos + 1) _ t (by omega) (by omega)
                (by rw [hlex, slice_succ input startPos pos hsp hlt]) (by simp)
                (fun _ => by omega) h
            · simp only [Option.some.injEq] at h
              subst h
              subst hlex
              exact NumberAutomaton.createIntegerToken_good input line column startPos pos
                hlow hpl
          · simp only [Option.some.injEq] at h
            subst h
            subst hlex
            exact NumberAutomaton.createIntegerToken_good input line column startPos pos
              hlow hpl
      · split at h
        · exact ih NumberAutomaton.NumberState.DECIMAL (pos + 1) _ t (by omega) (by omega)
            (by rw [hlex, slice_succ input startPos pos hsp hlt]) (by simp)
            (fun _ => by omega) h
        · exact ih NumberAutomaton.NumberState.REJECT pos lexeme t hsp hpl hlex (by simp)
            (by simp) h
      · have hlow : startPos < pos := hne (by simp)
        split at h
        · exact ih NumberAutomaton.NumberState.DECIMAL (pos + 1) _ t (by omega) (by omega)
            (by rw [hlex, slice_succ input startPos pos hsp hlt]) (by simp)
            (fun _ => by omega) h
        · simp only [Option.some.injEq] at h
          subst h
          subst hlex
          exact NumberAutomaton.createDecimalToken_good input line column startPos pos hlow hpl
      · simp at h
    · subst hlex
      split at h
      · simp only [Option.some.injEq] at h
        subst h
        exact NumberAutomaton.createIntegerToken_good input line column startPos pos
          (hne (by simp)) hpl
      · simp only [Option.some.injEq] at h
        subst h
        exact NumberAutomaton.createDecimalToken_good input line column startPos pos
          (hne (by simp)) hpl
      · exact absurd h (by simp)

theorem NumberAutomaton.recognizeLoop_oob (input : Str) (line column startPos : Nat)
    (pos : Nat) (lexeme : Str) (hge : input.length ≤ pos) :
    ∀ fuel, NumberAutomaton.recognizeLoop input line column startPos fuel
      NumberAutomaton.NumberState.START pos lexeme = none := by
  intro fuel
  cases fuel with
  | zero => rw [NumberAutomaton.recognizeLoop_zero_eq, if_neg (by omega)]
  | succ fuel => rw [NumberAutomaton.recognizeLoop_succ_eq, if_neg (by omega)]

theorem NumberAutomaton.numberRecognize_good (input : Str) (startPos line column : Nat)
    (t : Token) (h : NumberAutomaton.recognize input startPos line column = some t) :
    GoodToken input startPos line t := by
  unfold NumberAutomaton.recognize at h
  by_cases hsl : startPos ≤ input.length
  · exact NumberAutomaton.recognizeLoop_good input line column startPos _ _ startPos [] t
      (le_refl _) hsl (by simp [slice]) (fun _ => rfl) (by simp) h
  · rw [NumberAutomaton.recognizeLoop_oob input line column startPos startPos [] (by omega)] at h
    exact absurd h (by simp)

/-! ### The comment automaton produces well-formed tokens -/

theorem CommentAutomaton.lineLoop_bounds (input : Str) :
    ∀ fuel pos content, pos ≤ input.length →
      pos ≤ (CommentAutomaton.lineLoop input fuel pos content).1 ∧
      (CommentAutomaton.lineLoop input fuel pos content).1 ≤ input.length := by
  intro fuel
  induction fuel with
  | zero =>
    intro pos content hp
    unfold CommentAutomaton.lineLoop
    split
    · exact ⟨le_refl _, hp⟩
    · exact ⟨le_refl _, hp⟩
  | succ fuel ih =>
    intro pos content hp
    unfold CommentAutomaton.lineLoop
    split
    case _ hlt =>
      dsimp only
      split
      · exact ⟨le_refl _, hp⟩
      · have := ih (pos + 1) (content ++ [peek input pos]) (by omega)
        exact ⟨by omega, this.2⟩
    case _ hge => exact ⟨le_refl _, hp⟩

theorem CommentAutomaton.recognizeLineComment_good (input : Str)
    (startPos line column : Nat) (t : Token) (hlt : startPos + 1 < input.length)
    (h : CommentAutomaton.recognizeLineComment input (startPos + 1) line column startPos
      = some t) :
    GoodToken input startPos line t := by
  unfold CommentAutomaton.recognizeLineComment at h
  simp only [Option.some.injEq] at h
  subst h
  obtain ⟨hb1, hb2⟩ :=
    CommentAutomaton.lineLoop_bounds input (input.length + 2) (startPos + 1 + 1) [] (by omega)
  exact createToken_slice_good input TokenType.LINE_COMMENT line column startPos _ _
    (by omega) hb2 (by decide)

theorem CommentAutomaton.blockLoop_good (input : Str) (line column startPos : Nat) :
    ∀ fuel pos content nesting t, startPos ≤ pos →
      CommentAutomaton.blockLoop input line column startPos fuel pos content nesting
        = some t →
      GoodToken input startPos line t := by
  intro fuel
  induction fuel with
  | zero =>
    intro pos content nesting t hsp h
    unfold CommentAutomaton.blockLoop at h
    split at h
    · simp at h
    · simp at h
  | succ fuel ih =>
    intro pos content nesting t hsp h
    unfold CommentAutomaton.blockLoop at h
    split at h
    case _ hcond =>
      dsimp only at h
      split at h
      case _ hstar =>
        split at h
        · simp only [Option.some.injEq] at h
          subst h
          have hp1 : pos + 1 < input.length := by
            apply peek_lt_length input pos 1
            rw [hstar.2]
            decide
          exact createToken_slice_good input TokenType.BLOCK_COMMENT line column startPos _ _
            (by omega) (by omega) (by decide)
        · exact ih (pos + 1) _ _ t (by omega) h
      case _ =>
        split at h
        · exact ih (pos + 1) _ _ t (by omega) h
        · exact ih (pos + 1) _ _ t (by omega) h
    · simp at h

theorem CommentAutomaton.docLoop_good (input : Str) (line column startPos : Nat) :
    ∀ fuel pos content t, startPos ≤ pos →
      CommentAutomaton.docLoop input line column startPos fuel pos content = some t →
      GoodToken input startPos line t := by
  intro fuel
  induction fuel with
  | zero =>
    intro pos content t hsp h
    unfold CommentAutomaton.docLoop at h
    split at h
    · simp at h
    · simp at h
  | succ fuel ih =>
    intro pos content t hsp h
    unfold CommentAutomaton.docLoop at h
    split at h
    case _ hlt =>
      dsimp only at h
      split at h
      case _ hstar =>
        simp only [Option.some.injEq] at h
        subst h
        have hp1 : pos + 1 < input.length := by
          apply peek_lt_length input pos 1
          rw [hstar.2]
          decide
        exact createToken_slice_good input TokenType.DOC_COMMENT line column startPos _ _
          (by omega) (by omega) (by decide)
      case _ =>
        exact ih (pos + 1) _ t (by omega) h
    · simp at h

theorem CommentAutomaton.commentRecognize_good (input : Str) (startPos line column : Nat)
    (t : Token) (h : CommentAutomaton.recognize input startPos line column = some t) :
    GoodToken input startPos line t := by
  unfold CommentAutomaton.recognize at h
  dsimp only at h
  split at h
  · simp at h
  case _ hslash =>
    rw [not_not] at hslash
    split at h
    case _ hsec =>
      have hlt : startPos + 1 < input.length := by
        have := peek_lt_length input (startPos + 1) 0 (by rw [hsec]; decide)
        omega
      exact CommentAutomaton.recognizeLineComment_good input startPos line column t hlt h
    case _ =>
      split at h
      case _ hsec2 =>
        split at h
        · exact CommentAutomaton.docLoop_good input line column startPos _ (startPos + 3) []
            t (by omega) h
        · exact CommentAutomaton.blockLoop_good input line column startPos _ (startPos + 2) []
            1 t (by omega) h
      case _ => simp at h

/-! ### The string automaton produces well-formed tokens -/

theorem StringAutomaton.braceLoop_pos_le (input : Str) :
    ∀ fuel pos content braceCount,
      pos ≤ (StringAutomaton.braceLoop input fuel pos content braceCount).2 := by
  intro fuel
  induction fuel with
  | zero =>
    intro pos content braceCount
    unfold StringAutomaton.braceLoop
    split
    · exact le_refl _
    · exact le_refl _
  | succ fuel ih =>
    intro pos content braceCount
    unfold StringAutomaton.braceLoop
    split
    · dsimp only
      exact le_trans (Nat.le_succ pos) (ih (pos + 1) (content ++ [peek input pos]) _)
    · exact le_refl _

theorem StringAutomaton.templateVarLoop_pos_le (input : Str) :
    ∀ fuel pos content,
      pos ≤ (StringAutomaton.templateVarLoop input fuel pos content).2 := by
  intro fuel
  induction fuel with
  | zero =>
    intro pos content
    unfold StringAutomaton.templateVarLoop
    split
    · exact le_refl _
    · exact le_refl _
  | succ fuel ih =>
    intro pos content
    unfold StringAutomaton.templateVarLoop
    split
    · dsimp only
      exact le_trans (Nat.le_succ pos) (ih (pos + 1) (content ++ [peek input pos]))
    · exact le_refl _

theorem StringAutomaton.consumeTemplateBrace_pos_le (input : Str) (pos : Nat) :
    pos + 1 ≤ (StringAutomaton.consumeTemplateBrace input pos).2 :=
  StringAutomaton.braceLoop_pos_le input (input.length + 2) (pos + 1) ['\x7b'] 1

theorem StringAutomaton.consumeTemplateVariable_pos_le (input : Str) (pos : Nat) :
    pos ≤ (StringAutomaton.consumeTemplateVariable input pos).2 := by
  unfold StringAutomaton.consumeTemplateVariable
  split
  · exact StringAutomaton.templateVarLoop_pos_le input (input.length + 2) pos []
  · exact le_refl _

theorem StringAutomaton.charLoop_good (input : Str) (line column startPos : Nat) :
    ∀ fuel pos content escaped t, startPos ≤ pos →
      StringAutomaton.charLoop input line column startPos fuel pos content escaped = some t →
      GoodToken input startPos line t := by
  intro fuel
  induction fuel with
  | zero =>
    intro pos content escaped t hsp h
    unfold StringAutomaton.charLoop at h
    split at h
    · simp at h
    · simp at h
  | succ fuel ih =>
    intro pos content escaped t hsp h
    unfold StringAutomaton.charLoop at h
    split at h
    case _ hlt =>
      dsimp only at h
      split at h
      · exact ih (pos + 1) _ false t (by omega) h
      · split at h
        · exact ih (pos + 1) _ true t (by omega) h
        · split at h
          · simp only [Option.some.injEq] at h
            subst h
            exact createToken_slice_good input TokenType.CHAR line column startPos _ _
              (by omega) (by omega) (by decide)
          · split at h
            · simp at h
            · split at h
              · simp at h
              · exact ih (pos + 1) _ false t (by omega) h
    · simp at h

theorem StringAutomaton.stringLoop_good (input : Str) (line column startPos : Nat) :
    ∀ fuel pos content hasTemplate escaped t, startPos ≤ pos →
      StringAutomaton.stringLoop input line column startPos fuel pos content hasTemplate
        escaped = some t →
      GoodToken input startPos line t := by
  intro fuel
  induction fuel with
  | zero =>
    intro pos content hasTemplate escaped t hsp h
    unfold StringAutomaton.stringLoop at h
    split at h
    · simp at h
    · simp at h
  | succ fuel ih =>
    intro pos content hasTemplate escaped t hsp h
    unfold StringAutomaton.stringLoop at h
    split at h
    case _ hlt =>
      dsimp only at h
      split at h
      · exact ih (pos + 1) _ hasTemplate false t (by omega) h
      · split at h
        · exact ih (pos + 1) _ hasTemplate true t (by omega) h
        · split at h
          · refine ih _ _ true false t ?_ h
            have hb := StringAutomaton.consumeTemplateBrace_pos_le input (pos + 1)
            have hv := StringAutomaton.consumeTemplateVariable_pos_le input (pos + 1)
            split <;> omega
          · split at h
            · simp only [Option.some.injEq] at h
              subst h
              refine createToken_slice_good input _ line column startPos _ _
                (by omega) (by omega) ?_
              cases hasTemplate <;> decide
            · split at h
              · simp at h
              · split at h
                · simp at h
                · exact ih (pos + 1) _ hasTemplate false t (by omega) h
    · simp at h

theorem StringAutomaton.rawLoop_good (input : Str) (line column startPos : Nat) :
    ∀ fuel pos content t, startPos ≤ pos →
      StringAutomaton.rawLoop input line column startPos fuel pos content = some t →
      GoodToken input startPos line t := by
  intro fuel
  induction fuel with
  | zero =>
    intro pos content t hsp h
    unfold StringAutomaton.rawLoop at h
    split at h
    · simp at h
    · simp at h
  | succ fuel ih =>
    intro pos content t hsp h
    unfold StringAutomaton.rawLoop at h
    split at h
    case _ hlt =>
      dsimp only at h
      split at h
      · split at h
        case _ hqq =>
          simp only [Option.some.injEq] at h
          subst h
          have hp2 : pos + 2 < input.length := by
            apply peek_lt_length input pos 2
            rw [hqq.2]
            decide
          exact createToken_slice_good input TokenType.RAW_STRING line column startPos _ _
            (by omega) (by omega) (by decide)
        case _ =>
          exact ih (pos + 1) _ t (by omega) h
      · exact ih (pos + 1) _ t (by omega) h
    · simp at h

theorem StringAutomaton.stringRecognize_good (input : Str) (startPos line column : Nat)
    (t : Token) (h : StringAutomaton.recognize input startPos line column = some t) :
    GoodToken input startPos line t := by
  unfold StringAutomaton.recognize at h
  dsimp only at h
  split at h
  · exact StringAutomaton.charLoop_good input line column startPos _ (startPos + 1) [] false
      t (by omega) h
  · split at h
    · split at h
      · exact StringAutomaton.rawLoop_good input line column startPos _ (startPos + 3) []
          t (by omega) h
      · exact StringAutomaton.stringLoop_good input line column startPos _ (startPos + 1) []
          false false t (by omega) h
    · simp at h

/-! ### Tokens returned by the coordinator dispatch are well-formed -/

theorem LexerService.recognizeRest_token_good (input : Str) (position line column : Nat)
    (r : RecognitionResult) (t : Token)
    (h : LexerService.recognizeRest input position line column = some r)
    (ht : r.token = some t) :
    GoodToken input position line t := by
  unfold LexerService.recognizeRest at h
  split at h
  case _ tok htok =>
    simp only [Option.some.injEq] at h
    subst h
    simp only [Option.some.injEq] at ht
    subst ht
    exact NumberAutomaton.numberRecognize_good input position line column _ htok
  case _ =>
    split at h
    case _ tok htok =>
      simp only [Option.some.injEq] at h
      subst h
      simp only [Option.some.injEq] at ht
      subst ht
      exact OperatorAutomaton.operatorRecognize_good input position line column _ htok
    case _ =>
      split at h
      case _ tok htok =>
        simp only [Option.some.injEq] at h
        subst h
        simp only [Option.some.injEq] at ht
        subst ht
        exact IdentifierAutomaton.identifierRecognize_good input position line column _ htok
      case _ =>
        split at h
        case _ tok htok =>
          simp only [Option.some.injEq] at h
          subst h
          simp only [Option.some.injEq] at ht
          subst ht
          exact DelimiterAutomaton.delimiterRecognize_good input position line column _ htok
        case _ => simp at h

theorem LexerService.recognizeToken_token_good (input : Str) (position line column : Nat)
    (r : RecognitionResult) (t : Token)
    (h : LexerService.recognizeToken input position line column = some r)
    (ht : r.token = some t) :
    GoodToken input position line t := by
  unfold LexerService.recognizeToken at h
  dsimp only at h
  split at h
  · split at h
    case _ tok htok =>
      simp only [Option.some.injEq] at h
      subst h
      simp only [Option.some.injEq] at ht
      subst ht
      exact CommentAutomaton.commentRecognize_good input position line column _ htok
    case _ =>
      split at h
      · simp only [Option.some.injEq] at h
        subst h
        simp at ht
      · exact LexerService.recognizeRest_token_good input position line column r t h ht
  · split at h
    · split at h
      case _ tok htok =>
        simp only [Option.some.injEq] at h
        subst h
        simp only [Option.some.injEq] at ht
        subst ht
        exact StringAutomaton.stringRecognize_good input position line column _ htok
      case _ =>
        simp only [Option.some.injEq] at h
        subst h
        simp at ht
    · exact LexerService.recognizeRest_token_good input position line column r t h ht

/-! ### The scan loop consumes the input exactly -/

theorem take_drop_cover (l : Str) (p k : Nat) :
    (l.drop p).take k ++ l.drop (p + k) = l.drop p := by
  conv_rhs => rw [← List.take_append_drop k (l.drop p)]
  congr 1
  rw [List.drop_drop]

theorem slice_as_take (input : Str) (p k : Nat) :
    slice input p (p + k) = (input.drop p).take k := by
  unfold slice
  congr 1
  omega

theorem LexerService.analyzeLoop_tokens_eq_segTokens (input : Str) :
    ∀ fuel position line column,
      (LexerService.analyzeLoop input fuel position line column).tokens =
        LexerService.segTokens
          (LexerService.analyzeLoop input fuel position line column).segments := by
  intro fuel
  induction fuel with
  | zero => intro position line column; rfl
  | succ fuel ih =>
    intro position line column
    unfold LexerService.analyzeLoop
    split
    · dsimp only
      split
      · simp only [LexerService.segTokens, ih]
      · split
        · simp only [LexerService.segTokens, ih]
        · split
          · split
            · simp only [LexerService.segTokens, ih]
            · simp only [LexerService.segTokens, ih]
          · split
            · split
              · simp only [LexerService.segTokens, ih]
              · split
                · simp only [LexerService.segTokens, ih]
                · simp only [LexerService.segTokens, ih]
            · simp only [LexerService.segTokens, ih]
    · rfl

theorem LexerService.analyzeLoop_errors_eq_segErrors (input : Str) :
    ∀ fuel position line column,
      (LexerService.analyzeLoop input fuel position line column).errors =
        LexerService.segErrors
          (LexerService.analyzeLoop input fuel position line column).segments := by
  intro fuel
  induction fuel with
  | zero => intro position line column; rfl
  | succ fuel ih =>
    intro position line column
    unfold LexerService.analyzeLoop
    split
    · dsimp only
      split
      · simp only [LexerService.segErrors, ih]
      · split
        · simp only [LexerService.segErrors, ih]
        · split
          · split
            · simp only [LexerService.segErrors, ih]
            · simp only [LexerService.segErrors, ih]
          · split
            · split
              · simp only [LexerService.segErrors, ih]
              · split
                · simp only [LexerService.segErrors, ih]
                · simp only [LexerService.segErrors, ih]
            · simp only [LexerService.segErrors, ih]
    · rfl

theorem LexerService.analyzeLoop_coverage (input : Str) :
    ∀ fuel position line column, input.length - position ≤ fuel →
      LexerService.segsText
          (LexerService.analyzeLoop input fuel position line column).segments
        = input.drop position := by
  intro fuel
  induction fuel with
  | zero =>
    intro position line column hf
    rw [List.drop_eq_nil_of_le (by omega)]
    rfl
  | succ fuel ih =>
    intro position line column hf
    unfold LexerService.analyzeLoop
    split
    case _ hlt =>
      dsimp only
      split
      case _ hws =>
        rw [drop_eq_peek_cons input position hlt]
        simp only [LexerService.segsText, LexerService.segText]
        rw [ih (position + 1) line (column + 1) (by omega)]
        rfl
      case _ =>
        split
        case _ hn =>
          rw [drop_eq_peek_cons input position hlt]
          simp only [LexerService.segsText, LexerService.segText]
          rw [ih (position + 1) (line + 1) 1 (by omega), hn]
          rfl
        case _ =>
          split
          case _ hr =>
            split
            case _ hrn =>
              rw [drop_eq_peek_cons input position hlt, hr,
                drop_eq_peek_cons input (position + 1) hrn.1, hrn.2]
              simp only [LexerService.segsText, LexerService.segText]
              rw [ih (position + 2) (line + 1) 1 (by omega)]
              rfl
            case _ =>
              rw [drop_eq_peek_cons input position hlt, hr]
              simp only [LexerService.segsText, LexerService.segText]
              rw [ih (position + 1) (line + 1) 1 (by omega)]
              rfl
          case _ =>
            split
            case _ result hrt =>
              split
              case _ t htok =>
                obtain ⟨hline, hlen, hpos, htake, hty⟩ :=
                  LexerService.recognizeToken_token_good input position line column
                    result t hrt htok
                dsimp only
                simp only [LexerService.segsText, LexerService.segText]
                rw [ih (position + t.length) line (column + t.length) (by omega)]
                rw [htake, hlen]
                exact take_drop_cover input position t.lexeme.length
              case _ htok =>
                split
                case _ e herr =>
                  dsimp only
                  simp only [LexerService.segsText, LexerService.segText]
                  generalize hK : (match result.skipLength with
                    | some s => if 0 < s then s else 1
                    | none => 1) = K
                  have hK1 : 1 ≤ K := by
                    rw [← hK]
                    split
                    · split <;> omega
                    · omega
                  rw [ih (position + K) line (column + K) (by omega), slice_as_take]
                  exact take_drop_cover input position K
                case _ herr =>
                  dsimp only
                  simp only [LexerService.segsText, LexerService.segText]
                  rw [ih (position + 1) line (column + 1) (by omega), slice_as_take]
                  exact take_drop_cover input position 1
            case _ hrt =>
              dsimp only
              simp only [LexerService.segsText, LexerService.segText]
              rw [ih (position + 1) line (column + 1) (by omega), slice_as_take]
              exact take_drop_cover input position 1
    case _ hge =>
      rw [List.drop_eq_nil_of_le (by omega)]
      rfl

/-! ### Line accounting and well-formedness of the emitted token list -/

theorem LexerService.consSeg_token_line (s0 : LexerService.Seg) (rest : List LexerService.Seg)
    (line line' : Nat)
    (hrec : ∀ pre t post, rest = pre ++ LexerService.Seg.tok t :: post →
      t.line = line' + LexerService.segsLineInc pre)
    (hinc : line' = line + LexerService.segLineInc s0)
    (htok : ∀ t, s0 = LexerService.Seg.tok t → t.line = line) :
    ∀ pre t post, s0 :: rest = pre ++ LexerService.Seg.tok t :: post →
      t.line = line + LexerService.segsLineInc pre := by
  intro pre t post h
  cases pre with
  | nil =>
    simp only [List.nil_append] at h
    injection h with h1 h2
    rw [htok t h1]
    simp [LexerService.segsLineInc]
  | cons s pre' =>
    simp only [List.cons_append] at h
    injection h with h1 h2
    rw [hrec pre' t post h2, hinc, ← h1]
    simp only [LexerService.segsLineInc]
    omega

theorem LexerService.analyzeLoop_token_line (input : Str) :
    ∀ fuel position line column pre t post,
      (LexerService.analyzeLoop input fuel position line column).segments =
        pre ++ LexerService.Seg.tok t :: post →
      t.line = line + LexerService.segsLineInc pre := by
  intro fuel
  induction fuel with
  | zero =>
    intro position line column pre t post h
    unfold LexerService.analyzeLoop at h
    dsimp only at h
    exact absurd h.symm (by simp)
  | succ fuel ih =>
    intro position line column pre t post h
    unfold LexerService.analyzeLoop at h
    split at h
    case _ hlt =>
      dsimp only at h
      split at h
      case _ hws =>
        refine LexerService.consSeg_token_line _ _ line line
          (fun pre' t' post' hh => ih (position + 1) line (column + 1) pre' t' post' hh)
          ?_ ?_ pre t post h
        · simp only [LexerService.segLineInc]
          rw [if_neg]
          · omega
          · push_neg
            exact ⟨hws.2.1, hws.2.2⟩
        · intro t' hh
          exact LexerService.Seg.noConfusion hh
      case _ =>
        split at h
        case _ hn =>
          refine LexerService.consSeg_token_line _ _ line (line + 1)
            (fun pre' t' post' hh => ih (position + 1) (line + 1) 1 pre' t' post' hh)
            ?_ ?_ pre t post h
          · simp only [LexerService.segLineInc]
            rw [if_pos (Or.inl hn)]
          · intro t' hh
            exact LexerService.Seg.noConfusion hh
        case _ =>
          split at h
          case _ hr =>
            split at h
            case _ hrn =>
              refine LexerService.consSeg_token_line _ _ line (line + 1)
                (fun pre' t' post' hh => ih (position + 2) (line + 1) 1 pre' t' post' hh)
                ?_ ?_ pre t post h
              · simp [LexerService.segLineInc]
              · intro t' hh
                exact LexerService.Seg.noConfusion hh
            case _ =>
              refine LexerService.consSeg_token_line _ _ line (line + 1)
                (fun pre' t' post' hh => ih (position + 1) (line + 1) 1 pre' t' post' hh)
                ?_ ?_ pre t post h
              · simp [LexerService.segLineInc]
              · intro t' hh
                exact LexerService.Seg.noConfusion hh
          case _ =>
            split at h
            case _ result hrt =>
              split at h
              case _ t0 htok =>
                dsimp only at h
                obtain ⟨hline, hlen, hpos, htake, hty⟩ :=
                  LexerService.recognizeToken_token_good input position line column
                    result t0 hrt htok
                refine LexerService.consSeg_token_line _ _ line line
                  (fun pre' t' post' hh =>
                    ih (position + t0.length) line (column + t0.length) pre' t' post' hh)
                  ?_ ?_ pre t post h
                · simp [LexerService.segLineInc]
                · intro t' hh
                  injection hh with h3
                  rw [← h3]
                  exact hline
              case _ htok =>
                split at h
                case _ e herr =>
                  dsimp only at h
                  refine LexerService.consSeg_token_line _ _ line line
                    (fun pre' t' post' hh => ih _ line _ pre' t' post' hh)
                    ?_ ?_ pre t post h
                  · simp [LexerService.segLineInc]
                  · intro t' hh
                    exact LexerService.Seg.noConfusion hh
                case _ herr =>
                  dsimp only at h
                  refine LexerService.consSeg_token_line _ _ line line
                    (fun pre' t' post' hh => ih (position + 1) line (column + 1) pre' t' post' hh)
                    ?_ ?_ pre t post h
                  · simp [LexerService.segLineInc]
                  · intro t' hh
                    exact LexerService.Seg.noConfusion hh
            case _ hrt =>
              dsimp only at h
              refine LexerService.consSeg_token_line _ _ line line
                (fun pre' t' post' hh => ih (position + 1) line (column + 1) pre' t' post' hh)
                ?_ ?_ pre t post h
              · simp [LexerService.segLineInc]
              · intro t' hh
                exact LexerService.Seg.noConfusion hh
    case _ hge =>
      exact absurd h.symm (by simp)

theorem LexerService.analyzeLoop_tokens_good (input : Str) :
    ∀ fuel position line column t,
      t ∈ (LexerService.analyzeLoop input fuel position line column).tokens →
      t.type ≠ TokenType.EOF ∧ 0 < t.length := by
  intro fuel
  induction fuel with
  | zero =>
    intro position line column t h
    unfold LexerService.analyzeLoop at h
    dsimp only at h
    exact absurd h (by simp)
  | succ fuel ih =>
    intro position line column t h
    unfold LexerService.analyzeLoop at h
    split at h
    case _ hlt =>
      dsimp only at h
      split at h
      · exact ih (position + 1) line (column + 1) t h
      · split at h
        · exact ih (position + 1) (line + 1) 1 t h
        · split at h
          · split at h
            · exact ih (position + 2) (line + 1) 1 t h
            · exact ih (position + 1) (line + 1) 1 t h
          · split at h
            case _ result hrt =>
              split at h
              case _ t0 htok =>
                dsimp only at h
                rw [List.mem_cons] at h
                rcases h with h | h
                · obtain ⟨hline, hlen, hpos, htake, hty⟩ :=
                    LexerService.recognizeToken_token_good input position line column
                      result t0 hrt htok
                  subst h
                  exact ⟨hty, hpos⟩
                · exact ih (position + t0.length) line (column + t0.length) t h
              case _ htok =>
                split at h
                · dsimp only at h
                  exact ih _ line _ t h
                · dsimp only at h
                  exact ih (position + 1) line (column + 1) t h
            case _ hrt =>
              dsimp only at h
              exact ih (position + 1) line (column + 1) t h
    case _ hge =>
      exact absurd h (by simp)

/-! ### Claim theorems -/

/-- C1 counterexample: the claim requires that scanning `(a, [b)` emits one
UnexpectedClosingDelimiter diagnostic and one UnmatchedOpenParen diagnostic,
so at least two diagnostics.  The analysis emits no diagnostics at all on
this input (the coordinator has no delimiter-balance stack and the error
taxonomy has no delimiter-balance kinds), which falsifies the claim. -/
theorem c1_delimiter_stack_counterexample :
    (LexerService.analyze "(a, [b)".toList).errors = [] := by decide

/-- C1 amended: the coordinator maintains no delimiter-balance stack — on
`(a, [b)` every bracket is emitted as an ordinary delimiter token, the
mismatched `)` and the unclosed `(` and `[` produce no diagnostics, and the
analysis succeeds. -/
theorem c1_no_delimiter_diagnostics :
    (LexerService.analyze "(a, [b)".toList).tokens =
      [ createToken TokenType.LPAREN ['('] 1 1 0,
        createToken TokenType.IDENTIFIER ['a'] 1 2 1,
        createToken TokenType.COMMA [','] 1 3 2,
        createToken TokenType.LBRACKET ['['] 1 5 4,
        createToken TokenType.IDENTIFIER ['b'] 1 6 5,
        createToken TokenType.RPAREN [')'] 1 7 6,
        createToken TokenType.EOF [] 1 8 7 ] ∧
    (LexerService.analyze "(a, [b)".toList).success = true := by decide

/-- C2 (code bug): the claim says a string containing the invalid escape
`\q` is rejected with an invalid-escape diagnostic of highest priority.  The
code instead accepts it: `escapeCharToValue` is `escapeMap[char] || char`,
so the recognizer's invalid-escape reject branch is unreachable and the
input `"\q"` produces a STRING token whose decoded content is `q`, with no
diagnostic (the error taxonomy has no invalid-escape kind at all). -/
theorem c2_invalid_escape_accepted :
    (LexerService.analyze ['"', '\\', 'q', '"']).tokens =
      [ createToken TokenType.STRING ['"', '\\', 'q', '"'] 1 1 0
          (some (TokenValue.strVal ['q'])),
        createToken TokenType.EOF [] 1 5 4 ] ∧
    (LexerService.analyze ['"', '\\', 'q', '"']).errors = [] := by decide

/-- C3 (code bug): the claim — and the char automaton's own documented
grammar, and the INVALID_CHAR taxonomy entry that names `'ab'` as invalid —
say a char literal holds exactly one logical character unit, so `'ab'`
produces no CHAR token.  The recognizer instead loops over arbitrarily many
content characters until the closing quote: `'ab'` produces a CHAR token
with decoded content `ab` and no diagnostic. -/
theorem c3_multichar_char_accepted :
    (LexerService.analyze ['\x27', 'a', 'b', '\x27']).tokens =
      [ createToken TokenType.CHAR ['\x27', 'a', 'b', '\x27'] 1 1 0
          (some (TokenValue.strVal ['a', 'b'])),
        createToken TokenType.EOF [] 1 5 4 ] ∧
    (LexerService.analyze ['\x27', 'a', 'b', '\x27']).errors = [] := by decide

/-- C4 counterexample: the claim says the uppercase variant `VAL` of the
keyword `val` is classified as IDENTIFIER, not KEYWORD.  Scanning `VAL`
yields a KEYWORD token, falsifying the claim. -/
theorem c4_uppercase_keyword_counterexample :
    (LexerService.analyze "VAL".toList).tokens.map Token.type =
      [TokenType.KEYWORD, TokenType.EOF] ∧
    (LexerService.analyze "VAL".toList).tokens.map Token.type ≠
      [TokenType.IDENTIFIER, TokenType.EOF] := by decide

/-- C4 amended: keyword membership is case-insensitive — `isKeyword`
lowercases the queried lexeme before the table lookup, so the uppercase and
mixed-case variants `VAL` and `Fun` are classified as KEYWORD, not
IDENTIFIER. -/
theorem c4_keyword_lookup_case_insensitive :
    ReservedWords.isKeyword "VAL".toList = true ∧
    ReservedWords.isKeyword "Fun".toList = true ∧
    (LexerService.analyze "VAL".toList).tokens.map Token.type =
      [TokenType.KEYWORD, TokenType.EOF] ∧
    (LexerService.analyze "Fun".toList).tokens.map Token.type =
      [TokenType.KEYWORD, TokenType.EOF] := by decide

/-- C5 counterexample: the claim says scanning `true` produces a
boolean-literal token, never a plain KEYWORD token.  Scanning `true` yields
a KEYWORD token, falsifying the claim. -/
theorem c5_true_literal_counterexample :
    (LexerService.analyze "true".toList).tokens.map Token.type =
      [TokenType.KEYWORD, TokenType.EOF] ∧
    (LexerService.analyze "true".toList).tokens.map Token.type ≠
      [TokenType.BOOLEAN, TokenType.EOF] := by decide

/-- C5 amended: the scan path classifies `true`, `false` and `null` as plain
KEYWORD tokens (the identifier automaton calls `getTokenType`, never
`getSpecialLiteralType`); the helper `getSpecialLiteralType` does return the
dedicated BOOLEAN/NULL kinds but is not invoked by the scanner. -/
theorem c5_special_literals_scan_as_keyword :
    (LexerService.analyze "true".toList).tokens.map Token.type =
      [TokenType.KEYWORD, TokenType.EOF] ∧
    (LexerService.analyze "false".toList).tokens.map Token.type =
      [TokenType.KEYWORD, TokenType.EOF] ∧
    (LexerService.analyze "null".toList).tokens.map Token.type =
      [TokenType.KEYWORD, TokenType.EOF] ∧
    ReservedWords.getSpecialLiteralType "true".toList = TokenType.BOOLEAN ∧
    ReservedWords.getSpecialLiteralType "false".toList = TokenType.BOOLEAN ∧
    ReservedWords.getSpecialLiteralType "null".toList = TokenType.NULL := by decide

/-- C6 (code bug): the claim — matching the comment automaton's REJECT
state, documented as an unclosed block — says `/* a /* b */ c` (nested, one
closer, depth 1 at end of input) yields exactly one UnclosedBlockComment
diagnostic and no tokens.  The coordinator's fallback only fires when no
`*/` occurs anywhere ahead, so here it emits no diagnostic and tokenizes the
span as `/`, `*`, `a`, the inner comment `/* b */`, and `c`.  The
well-nested variant `/* a /* b */ c */` does produce a single BLOCK_COMMENT
token covering the whole span, as claimed. -/
theorem c6_nested_block_comment_behavior :
    (LexerService.analyze "/* a /* b */ c".toList).tokens =
      [ createToken TokenType.DIVIDE ['/'] 1 1 0,
        createToken TokenType.MULTIPLY ['*'] 1 2 1,
        createToken TokenType.IDENTIFIER ['a'] 1 4 3,
        createToken TokenType.BLOCK_COMMENT "/* b */".toList 1 6 5
          (some (TokenValue.strVal ['b'])),
        createToken TokenType.IDENTIFIER ['c'] 1 14 13,
        createToken TokenType.EOF [] 1 15 14 ] ∧
    (LexerService.analyze "/* a /* b */ c".toList).errors = [] ∧
    (LexerService.analyze "/* a /* b */ c */".toList).tokens =
      [ createToken TokenType.BLOCK_COMMENT "/* a /* b */ c */".toList 1 1 0
          (some (TokenValue.strVal "a /* b */ c".toList)),
        createToken TokenType.EOF [] 1 18 17 ] ∧
    (LexerService.analyze "/* a /* b */ c */".toList).errors = [] := by decide

/-- C7 counterexample: the claim says every token's line equals 1 plus the
number of line-break sequences before its offset, including breaks inside
earlier multi-line lexemes.  On `/* x\n*/ a` the token `a` starts after the
newline inside the block comment (one break before offset 8) but carries
line 1, because the scan loop advances only the column, never the line, when
it skips past a token's lexeme. -/
theorem c7_line_count_counterexample :
    ¬ (∀ t ∈ (LexerService.analyze "/* x\n*/ a".toList).tokens,
        t.line = 1 + countLineBreakSeqs (List.take t.position ("/* x\n*/ a".toList))) := by
  decide

/-- C7 amended: every line-break sequence scanned between lexemes advances
the line counter and resets the column, but line breaks inside a token's
lexeme or a recovery span do not; consequently a token's line equals 1 plus
the number of line-break whitespace segments elided before it in the scan
(not 1 plus all line breaks before its offset). -/
theorem c7_token_line_counts_elided_breaks (input : Str)
    (pre : List LexerService.Seg) (t : Token) (post : List LexerService.Seg)
    (h : (LexerService.analyze input).segments =
      pre ++ LexerService.Seg.tok t :: post) :
    t.line = 1 + LexerService.segsLineInc pre :=
  LexerService.analyzeLoop_token_line input input.length 0 1 1 pre t post h

/-- C7 witness: on `a\nb` the token `b` follows the segments
`[tok a, ws newline]` and its line 2 equals 1 plus the one elided
line-break segment. -/
theorem c7_token_line_counts_elided_breaks_witness :
    ({ type := TokenType.IDENTIFIER, lexeme := ['b'], line := 2, column := 1,
       position := 2, length := 1, value := none } : Token).line =
      1 + LexerService.segsLineInc
        [ LexerService.Seg.tok
            { type := TokenType.IDENTIFIER, lexeme := ['a'], line := 1, column := 1,
              position := 0, length := 1, value := none },
          LexerService.Seg.ws ['\n'] ] :=
  c7_token_line_counts_elided_breaks "a\nb".toList
    [ LexerService.Seg.tok
        { type := TokenType.IDENTIFIER, lexeme := ['a'], line := 1, column := 1,
          position := 0, length := 1, value := none },
      LexerService.Seg.ws ['\n'] ]
    { type := TokenType.IDENTIFIER, lexeme := ['b'], line := 2, column := 1,
      position := 2, length := 1, value := none }
    [] (by decide)

/-- C8: coverage invariant — for every input, the spans consumed by the scan
loop (token lexemes, diagnostic recovery-skip spans, and elided whitespace),
concatenated in order, reconstruct the input exactly; the token segments in
order are exactly the emitted tokens (before the EOF sentinel) and the error
segments in order are exactly the emitted diagnostics.  This also embodies
termination: a fuel of `input.length` always suffices for the loop to
consume the whole input. -/
theorem c8_coverage_invariant (input : Str) :
    LexerService.segsText (LexerService.analyze input).segments = input ∧
    (LexerService.analyze input).tokens.dropLast =
      LexerService.segTokens (LexerService.analyze input).segments ∧
    (LexerService.analyze input).errors =
      LexerService.segErrors (LexerService.analyze input).segments := by
  unfold LexerService.analyze
  dsimp only
  refine ⟨?_, ?_, ?_⟩
  · have := LexerService.analyzeLoop_coverage input input.length 0 1 1 (by omega)
    rw [List.drop_zero] at this
    exact this
  · rw [List.dropLast_concat]
    exact LexerService.analyzeLoop_tokens_eq_segTokens input input.length 0 1 1
  · exact LexerService.analyzeLoop_errors_eq_segErrors input input.length 0 1 1

/-- C8 witness: concrete instance of the coverage invariant on `a\nb`. -/
theorem c8_coverage_invariant_witness :
    LexerService.segsText (LexerService.analyze "a\nb".toList).segments = "a\nb".toList :=
  (c8_coverage_invariant "a\nb".toList).1

/-- C9: the number automaton consumes a dot after integer digits only when
the character after the dot is a digit — `3.14` yields one DECIMAL token
whose decoded value is exactly 3.14 (mantissa 314, scale 2; the source
stores the nearest IEEE-754 double of this value), and `3..5` yields
INTEGER(3), RANGE(..), INTEGER(5): the lookahead never consumes the range
operator. -/
theorem c9_decimal_and_range_tokens :
    (LexerService.analyze "3.14".toList).tokens =
      [ createToken TokenType.DECIMAL "3.14".toList 1 1 0
          (some (TokenValue.decVal 314 2)),
        createToken TokenType.EOF [] 1 5 4 ] ∧
    (LexerService.analyze "3.14".toList).errors = [] ∧
    (LexerService.analyze "3..5".toList).tokens =
      [ createToken TokenType.INTEGER ['3'] 1 1 0 (some (TokenValue.intVal 3)),
        createToken TokenType.RANGE "..".toList 1 2 1,
        createToken TokenType.INTEGER ['5'] 1 4 3 (some (TokenValue.intVal 5)),
        createToken TokenType.EOF [] 1 5 4 ] ∧
    (LexerService.analyze "3..5".toList).errors = [] := by decide

/-- C10: for every input, including the empty string, the token list is
non-empty, its last element is the zero-length EOF sentinel positioned at
the final line/column/offset reached by the scan, and no earlier token is an
EOF token or has length zero (so the sentinel is unique). -/
theorem c10_eof_sentinel (input : Str) :
    (LexerService.analyze input).tokens ≠ [] ∧
    (LexerService.analyze input).tokens.getLast? = some
      { type := TokenType.EOF, lexeme := [],
        line := (LexerService.analyzeLoop input input.length 0 1 1).line,
        column := (LexerService.analyzeLoop input input.length 0 1 1).column,
        position := (LexerService.analyzeLoop input input.length 0 1 1).position,
        length := 0, value := none } ∧
    ∀ t ∈ (LexerService.analyze input).tokens.dropLast,
      t.type ≠ TokenType.EOF ∧ 0 < t.length := by
  unfold LexerService.analyze
  dsimp only
  refine ⟨by simp, ?_, ?_⟩
  · rw [List.getLast?_concat]
  · rw [List.dropLast_concat]
    intro t ht
    exact LexerService.analyzeLoop_tokens_good input input.length 0 1 1 t ht

/-- C10 witness: on the empty input the token list is non-empty (it is
exactly the EOF sentinel). -/
theorem c10_eof_sentinel_witness :
    (LexerService.analyze ([] : Str)).tokens ≠ [] :=
  (c10_eof_sentinel []).1

end TLF
